import Mathlib

/-!
# Verification of the kapow route-serving core

A shallow embedding of the kapow proof-of-concept server core:

* `internal/server/control/control.go` — the ControlAPI handlers
  (`addRoute`, `removeRoute`), translated directly from the source.
* the route registry (`user.Routes`: `Append`, `Delete`, `Snapshot`),
  the data-plane request accessors (`getRequestBody`,
  `getRequestParams`) and the `swappableMux`, whose implementations are
  not part of the source tree (only their tests are); those are
  modelled from the specification, each such definition marked in its
  doc comment.

The response-writer model (`RespWriter`) embeds the relevant semantics
of Go's `net/http.ResponseWriter` / `httptest.ResponseRecorder`: the
header map is snapshotted when the status line is committed
(`WriteHeader`), a first `Write` commits an implicit 200, later header
mutations are not sent, and a handler that never writes yields the
recorder's default status 200.
-/

/-- `model.Route` (the `model` package is outside the source tree; the
field set is the one the spec gives: id, method, pattern, command). -/
structure Route where
  Id : String
  Method : String
  Pattern : String
  Command : String
deriving Repr, DecidableEq

/-- Embedding of Go's `http.ResponseWriter` as observed through
`httptest.ResponseRecorder`: `headers` is the live header map,
`status`/`sentHeaders` are the committed status line and the header
snapshot taken at commit time, `body` the bytes written so far. -/
structure RespWriter where
  headers : List (String × String)
  status : Option Nat
  sentHeaders : List (String × String)
  body : String
deriving Repr, DecidableEq

/-- The fresh writer a handler receives (`httptest.NewRecorder()`). -/
def emptyWriter : RespWriter := ⟨[], none, [], ""⟩

/-- `Header().Set(k, v)`: replace any value for `k` in the live map. -/
def setHeader (hs : List (String × String)) (k v : String) :
    List (String × String) :=
  hs.filter (fun p => p.1 ≠ k) ++ [(k, v)]

/-- First value for key `k` in a header map. -/
def lookupHeader (hs : List (String × String)) (k : String) : Option String :=
  (hs.find? (fun p => p.1 = k)).map (fun p => p.2)

/-- `res.Header().Set(k, v)` on the writer. -/
def RespWriter.headerSet (w : RespWriter) (k v : String) : RespWriter :=
  { w with headers := setHeader w.headers k v }

/-- `res.WriteHeader(code)`: commits the status line and snapshots the
header map; a second call is ignored (Go logs and drops it). -/
def RespWriter.writeHeader (w : RespWriter) (code : Nat) : RespWriter :=
  match w.status with
  | some _ => w
  | none => { w with status := some code, sentHeaders := w.headers }

/-- `res.Write(data)`: an uncommitted writer first commits an implicit
200, then the bytes are appended to the body. -/
def RespWriter.write (w : RespWriter) (data : String) : RespWriter :=
  let w1 := w.writeHeader 200
  { w1 with body := w1.body ++ data }

/-- The status code of `Result()`: the committed status, or the
recorder default 200 when the handler never wrote. -/
def statusOf (w : RespWriter) : Nat := w.status.getD 200

/-- The body of `Result()`. -/
def bodyOf (w : RespWriter) : String := w.body

/-- The Content-Type header actually sent with the response: taken
from the snapshot made at commit time (headers set afterwards are
discarded), from the live map if the handler never committed. -/
def sentContentType (w : RespWriter) : Option String :=
  match w.status with
  | some _ => lookupHeader w.sentHeaders "Content-Type"
  | none => lookupHeader w.headers "Content-Type"

/-! ## Data-plane body accessor (`getRequestBody`)

The implementation is not in the source tree (only its tests in the
`data` package are). Modelled from the spec: "streams the client
request body verbatim to the caller; sets content type to an opaque
byte-stream marker; if the body cannot be read ... returns a
server-error status and aborts the HTTP exchange abnormally ...
whenever the fault occurs after a partial write has already started".

A request body is a sequence of read results: either a chunk of bytes
or a read error (`fail`). `io.Copy` stops at the first error and only
calls `Write` for reads that returned at least one byte. -/

/-- One result of `Read` on the handler's request body. -/
inductive ReadEvent where
  | chunk (s : String)
  | fail
deriving Repr, DecidableEq

/-- Embedding of `io.Copy(res, body)`: returns the writer, the number
of bytes written, and whether the copy stopped on a read error. -/
def copyLoop : RespWriter → Nat → List ReadEvent → RespWriter × Nat × Bool
  | res, written, [] => (res, written, false)
  | res, written, ReadEvent.chunk s :: rest =>
      copyLoop (if s = "" then res else res.write s) (written + s.length) rest
  | res, written, ReadEvent.fail :: _ => (res, written, true)

/-- Modelled from the spec: `getRequestBody` (data package, absent
from the source tree). Sets the byte-stream content type, streams the
handler's request body to the response; on a read error it answers 500
if nothing was written yet, and aborts the exchange abnormally (Go:
panics) if a partial write had started — the abnormal abort is the
`Except.error` outcome. -/
def getRequestBody (body : List ReadEvent) (res : RespWriter) :
    Except Unit RespWriter :=
  let res1 := res.headerSet "Content-Type" "application/octet-stream"
  match copyLoop res1 0 body with
  | (res2, written, true) =>
      if written = 0 then Except.ok (res2.writeHeader 500)
      else Except.error ()
  | (res2, _, false) => Except.ok res2

/-- Status of a possibly-aborted exchange: `none` when the exchange
was aborted abnormally instead of completing. -/
def exchangeStatus : Except Unit RespWriter → Option Nat
  | Except.error _ => none
  | Except.ok w => some (statusOf w)

/-- Body of a completed exchange. -/
def exchangeBody : Except Unit RespWriter → Option String
  | Except.error _ => none
  | Except.ok w => some (bodyOf w)

/-- Sent content type of a completed exchange. -/
def exchangeContentType : Except Unit RespWriter → Option String
  | Except.error _ => none
  | Except.ok w => some ((sentContentType w).getD "")

/-! ## Route registry (`user.Routes`)

`state.go` is absent from the source tree (only `state_test.go` is).
The registry is a `safeRouteList`, a slice of routes behind a lock;
for the functional claims we model the route collection as the list of
routes, and its operations from the spec. -/

/-- Modelled from the spec: `safeRouteList.Append` (absent from the
source tree) — "assigns an id if missing, appends to the ordered
collection, returns the stored value (with id populated)". `fresh` is
the identifier the id generator yields for this call. -/
def Routes.Append (reg : List Route) (fresh : String) (r : Route) :
    List Route × Route :=
  let stored := if r.Id = "" then { r with Id := fresh } else r
  (reg ++ [stored], stored)

/-- Modelled from the spec: `safeRouteList.Delete` (absent from the
source tree) — "removes the first (only) entry with matching id. Fails
with NotFound if no entry has that id". -/
def Routes.Delete : List Route → String → Except Unit (List Route)
  | [], _ => Except.error ()
  | r :: rs, id =>
      if r.Id = id then Except.ok rs
      else (Routes.Delete rs id).map (fun rs1 => r :: rs1)

/-! ## ControlAPI handlers (`control.go`, translated from the source)

`addRoute` reads the body, `json.Unmarshal`s it into a `Route`, and
validates; the unmarshal step is at the boundary with the standard
library and is embedded as its outcome, `Except Unit Route` (error =
malformed JSON). `json.Marshal` of the created route is embedded as
`encodeRoute`. The handlers mutate the registry through the package
variables `funcAdd = user.Routes.Append` / `funcRemove =
user.Routes.Delete`; the registry state is passed explicitly. -/

/-- Embedding of `json.Marshal` on a `Route` (field tags are not in
the source tree; the exact rendering is irrelevant to the claims,
which only need which route got encoded). -/
def encodeRoute (r : Route) : String :=
  "\x7b\"id\":\"" ++ r.Id ++ "\",\"method\":\"" ++ r.Method ++
    "\",\"pattern\":\"" ++ r.Pattern ++ "\",\"command\":\"" ++
    r.Command ++ "\"\x7d"

/-- `addRoute` from `control.go`: 400 on malformed JSON, 422 on empty
method or empty pattern, otherwise append the route and answer 201;
note the source calls `WriteHeader(201)` before `Header().Set`. -/
def addRoute (reg : List Route) (fresh : String)
    (decoded : Except Unit Route) (res : RespWriter) :
    List Route × RespWriter :=
  match decoded with
  | Except.error _ => (reg, res.writeHeader 400)
  | Except.ok route =>
      if route.Method = "" then (reg, res.writeHeader 422)
      else if route.Pattern = "" then (reg, res.writeHeader 422)
      else
        let pr := Routes.Append reg fresh route
        let res1 := res.writeHeader 201
        let res2 := res1.headerSet "Content-Type" "application/json"
        let res3 := res2.write (encodeRoute pr.2)
        (pr.1, res3)

/-- `removeRoute` from `control.go`: 404 when the registry delete
fails, 204 when it succeeds. -/
def removeRoute (reg : List Route) (id : String) (res : RespWriter) :
    List Route × RespWriter :=
  match Routes.Delete reg id with
  | Except.error _ => (reg, res.writeHeader 404)
  | Except.ok reg1 => (reg1, res.writeHeader 204)

/-! ## ControlAPI together with the router (for the rebuild claim)

`control.go` imports only the `model` and `user` (registry) packages;
no SwappableRouter is in scope in either handler, so in the combined
state the router table is untouched by both. `buildTable` is the
rebuild the spec describes: a table built from the registry
snapshot. -/

/-- The registry plus the table currently installed in the
SwappableRouter. -/
structure ControlState where
  registry : List Route
  routerTable : List Route
deriving Repr, DecidableEq

/-- Modelled from the spec: the router rebuild — "a new table is built
from the registry snapshot"; the table holds the snapshot's routes. -/
def buildTable (snapshot : List Route) : List Route := snapshot

/-- `addRoute` acting on the combined state: `control.go`'s handler
touches only `user.Routes`. -/
def addRouteCtl (st : ControlState) (fresh : String)
    (decoded : Except Unit Route) (res : RespWriter) :
    ControlState × RespWriter :=
  let pr := addRoute st.registry fresh decoded res
  ({ st with registry := pr.1 }, pr.2)

/-- `removeRoute` acting on the combined state: `control.go`'s handler
touches only `user.Routes`. -/
def removeRouteCtl (st : ControlState) (id : String) (res : RespWriter) :
    ControlState × RespWriter :=
  let pr := removeRoute st.registry id res
  ({ st with registry := pr.1 }, pr.2)

/-! ## Data-plane query-parameter accessor (`getRequestParams`)

The implementation is not in the source tree (only its tests are).
The original request's query string is embedded as the ordered list of
its key/value pairs; `URL.Query().Get(name)` yields the value of the
first pair whose key is `name`. The `\x7bname\x7d` path variable of
the sub-request is embedded as the `name` argument. -/

/-- Modelled from the spec: `getRequestParams` (data package, absent
from the source tree) — "the first value of a query-string parameter
with the given name on the original request; fails with NotFound if
absent", setting the byte-stream content type on success. -/
def getRequestParams (query : List (String × String)) (name : String)
    (res : RespWriter) : RespWriter :=
  match query.find? (fun p => p.1 = name) with
  | none => res.writeHeader 404
  | some p =>
      let res1 := res.headerSet "Content-Type" "application/octet-stream"
      res1.write p.2

/-! ## Snapshot with explicit cells (`safeRouteList.Snapshot`)

The deep-copy/no-aliasing part of the Snapshot contract is about
sharing of memory, so for it the route collection is embedded with the
store made explicit: every slice element lives in a cell with an
address, and an allocation counter `next` bounds every live address.
Snapshot allocates a fresh cell for each element and copies the value
into it. -/

/-- A slice element: an addressed cell holding a route value. -/
structure RouteCell where
  addr : Nat
  val : Route
deriving Repr, DecidableEq

/-- The `safeRouteList`'s collection with explicit cells: `rs` is the
live slice, `next` the allocation bound (every live address is below
it). -/
structure SafeRouteList where
  next : Nat
  rs : List RouteCell
deriving Repr, DecidableEq

/-- Allocation of copies: one fresh cell per element, at consecutive
fresh addresses. -/
def copyCells (next : Nat) : List RouteCell → List RouteCell
  | [] => []
  | c :: cs => ⟨next, c.val⟩ :: copyCells (next + 1) cs

/-- Modelled from the spec: `safeRouteList.Snapshot` (absent from the
source tree) — "returns a fully independent copy of the current
ordered collection (deep copy of every element); returns an
empty/nil-equivalent result when the collection is empty". Returns the
grown store and the copied sequence. -/
def Routes.Snapshot (srl : SafeRouteList) : SafeRouteList × List RouteCell :=
  let copies := copyCells srl.next srl.rs
  ({ srl with next := srl.next + srl.rs.length }, copies)

/-! ## SwappableRouter (`swappableMux`)

`mux.go` is absent from the source tree (only `mux_test.go` is). The
`sync.RWMutex` guarding the table is embedded as a labelled transition
system on the lock state: `lockStep s op = none` exactly when `op`
would block in state `s` (so a blocked operation cannot appear in a
trace). `get` is RLock; read `root`; RUnlock, `set` is Lock; replace
`root`; Unlock, and `ServeHTTP` dispatches the request through the
table captured by `get`. -/

/-- The `sync.RWMutex` state: how many readers hold it, and whether a
writer holds it. -/
structure RWState where
  readers : Nat
  writer : Bool
deriving Repr, DecidableEq

/-- Lock operations. -/
inductive LockOp where
  | acqR
  | relR
  | acqW
  | relW
deriving Repr, DecidableEq

/-- One lock transition; `none` when the operation blocks: `RLock`
waits while a writer holds the lock, `Lock` waits while a writer or
any reader holds it. -/
def lockStep (s : RWState) : LockOp → Option RWState
  | LockOp.acqR =>
      if s.writer then none else some { s with readers := s.readers + 1 }
  | LockOp.relR =>
      if s.readers = 0 then none else some { s with readers := s.readers - 1 }
  | LockOp.acqW =>
      if s.writer ∨ 0 < s.readers then none else some { s with writer := true }
  | LockOp.relW =>
      if s.writer then some { s with writer := false } else none

/-- A run of lock operations; fails as soon as one blocks, so a trace
that reaches a state contains only operations that fired. -/
def lockSteps (s : RWState) : List LockOp → Option RWState
  | [] => some s
  | op :: ops => (lockStep s op).bind (fun s1 => lockSteps s1 ops)

/-- Modelled from the spec: the `swappableMux` — the current routing
table behind a `sync.RWMutex`. The table is the ordered route list the
surrounding system built from a registry snapshot. -/
structure SwappableMux where
  m : RWState
  root : List Route
deriving Repr, DecidableEq

/-- `swappableMux.get`: RLock, capture `root`, RUnlock; `none` when
the RLock blocks. The lock state is unchanged once it completes. -/
def SwappableMux.get (sm : SwappableMux) : Option (List Route) :=
  (lockStep sm.m LockOp.acqR).bind fun m1 =>
    (lockStep m1 LockOp.relR).map fun _ => sm.root

/-- `swappableMux.set`: Lock, replace `root`, Unlock; `none` when the
Lock blocks (a writer or a reader still holds the mutex). -/
def SwappableMux.set (sm : SwappableMux) (t : List Route) :
    Option SwappableMux :=
  (lockStep sm.m LockOp.acqW).bind fun m1 =>
    (lockStep m1 LockOp.relW).map fun m2 => { m := m2, root := t }

/-- Dispatch through a routing table: the first route whose method and
pattern match the request wins (route-pattern matching itself is not
at issue in the lock-discipline claim and is embedded as equality of
method and of pattern against the request's method and path). -/
def dispatch (t : List Route) (method path : String) : Option Route :=
  t.find? (fun r => r.Method = method ∧ r.Pattern = path)

/-- `swappableMux.ServeHTTP`: obtains the current table via `get` and
dispatches through the captured table, without holding the lock. -/
def SwappableMux.serveHTTP (sm : SwappableMux) (method path : String) :
    Option (Option Route) :=
  (sm.get).map fun t => dispatch t method path

/-- A sample route used to instantiate theorems at concrete inputs. -/
def sampleRoute : Route := ⟨"A", "GET", "/x", "cat"⟩

/-! ## Lemmas about the body copy -/

/-- The writer after copying a list of chunks (writes skipped for
empty reads, as `io.Copy` only writes reads that returned bytes). -/
def writeAll : RespWriter → List String → RespWriter
  | res, [] => res
  | res, s :: rest => writeAll (if s = "" then res else res.write s) rest

theorem copyLoop_chunks (pre : List String) (rest : List ReadEvent)
    (res : RespWriter) (w : Nat) :
    copyLoop res w (pre.map ReadEvent.chunk ++ rest)
      = copyLoop (writeAll res pre) (w + (pre.map String.length).sum) rest := by
  induction pre generalizing res w with
  | nil => simp [writeAll]
  | cons s pre ih =>
      simp only [List.map_cons, List.cons_append, copyLoop, writeAll,
        List.append_eq, ih, List.sum_cons, Nat.add_assoc]

theorem string_eq_empty_of_length_zero (s : String) (h : s.length = 0) :
    s = "" := by
  cases s with
  | mk data =>
      cases data with
      | nil => rfl
      | cons c cs => simp [String.length] at h

theorem writeAll_of_sum_zero (pre : List String) (res : RespWriter)
    (h : (pre.map String.length).sum = 0) : writeAll res pre = res := by
  induction pre generalizing res with
  | nil => rfl
  | cons s pre ih =>
      simp only [List.map_cons, List.sum_cons, Nat.add_eq_zero] at h
      have hs : s = "" := string_eq_empty_of_length_zero s h.1
      simp only [writeAll, hs, if_pos rfl]
      exact ih res h.2

/-- C1: if the handler's request body reader fails before any bytes
have been written to the response, `getRequestBody` completes the
exchange with status 500; if it fails after a partial write has
started, the exchange is aborted abnormally (the Go code panics)
rather than completing with any clean status code. -/
theorem getRequestBody_failure_semantics (pre : List String)
    (rest : List ReadEvent) :
    ((pre.map String.length).sum = 0 →
      exchangeStatus
        (getRequestBody (pre.map ReadEvent.chunk ++ ReadEvent.fail :: rest)
          emptyWriter) = some 500) ∧
    ((pre.map String.length).sum ≠ 0 →
      getRequestBody (pre.map ReadEvent.chunk ++ ReadEvent.fail :: rest)
          emptyWriter = Except.error ()) := by
  constructor
  · intro h
    simp only [getRequestBody, copyLoop_chunks, writeAll_of_sum_zero _ _ h, h,
      copyLoop, Nat.add_zero, if_pos rfl]
    rfl
  · intro h
    simp only [getRequestBody, copyLoop_chunks, copyLoop, Nat.zero_add]
    simp [h]

theorem getRequestBody_failure_semantics_witness :
    exchangeStatus
      (getRequestBody (([""].map ReadEvent.chunk) ++ ReadEvent.fail :: [])
        emptyWriter) = some 500 ∧
    getRequestBody ((["FO"].map ReadEvent.chunk) ++ ReadEvent.fail :: [])
        emptyWriter = Except.error () :=
  ⟨(getRequestBody_failure_semantics [""] []).1 (by decide),
   (getRequestBody_failure_semantics ["FO"] []).2 (by decide)⟩

/-- C6: for a handler whose original request body is the bytes "BAR",
`getRequestBody` writes exactly "BAR" to the response, sets
Content-Type application/octet-stream, and completes with status
200. -/
theorem getRequestBody_roundtrip_BAR :
    exchangeStatus (getRequestBody [ReadEvent.chunk "BAR"] emptyWriter)
        = some 200 ∧
    exchangeBody (getRequestBody [ReadEvent.chunk "BAR"] emptyWriter)
        = some "BAR" ∧
    exchangeContentType (getRequestBody [ReadEvent.chunk "BAR"] emptyWriter)
        = some "application/octet-stream" := by
  decide

/-! ## The ControlAPI handlers -/

/-- C3: `addRoute` responds 400 when the request body is not valid
JSON, 422 when the decoded route's method or pattern is the empty
string, and otherwise 201 with the stored route (as returned by
`Append`) serialized as JSON in the response body. -/
theorem addRoute_response_contract (reg : List Route) (fresh : String)
    (d : Except Unit Route) :
    (d = Except.error () →
      statusOf (addRoute reg fresh d emptyWriter).2 = 400) ∧
    (∀ r : Route, d = Except.ok r → (r.Method = "" ∨ r.Pattern = "") →
      statusOf (addRoute reg fresh d emptyWriter).2 = 422) ∧
    (∀ r : Route, d = Except.ok r → r.Method ≠ "" → r.Pattern ≠ "" →
      statusOf (addRoute reg fresh d emptyWriter).2 = 201 ∧
      bodyOf (addRoute reg fresh d emptyWriter).2
        = encodeRoute (Routes.Append reg fresh r).2) := by
  refine ⟨fun h => ?_, fun r h hvalid => ?_, fun r h hm hp => ?_⟩
  · subst h
    simp [addRoute, RespWriter.writeHeader, emptyWriter, statusOf]
  · subst h
    rcases hvalid with hm | hp
    · simp [addRoute, hm, RespWriter.writeHeader, emptyWriter, statusOf]
    · by_cases hm : r.Method = "" <;>
        simp [addRoute, hm, hp, RespWriter.writeHeader, emptyWriter, statusOf]
  · subst h
    simp [addRoute, hm, hp, RespWriter.writeHeader, RespWriter.headerSet,
      RespWriter.write, emptyWriter, statusOf, bodyOf]

theorem addRoute_response_contract_witness :
    statusOf (addRoute [] "id1" (Except.error ()) emptyWriter).2 = 400 ∧
    statusOf (addRoute [] "id1" (Except.ok ⟨"", "", "/x", "cat"⟩)
        emptyWriter).2 = 422 ∧
    (statusOf (addRoute [] "id1" (Except.ok ⟨"", "GET", "/x", "cat"⟩)
        emptyWriter).2 = 201 ∧
      bodyOf (addRoute [] "id1" (Except.ok ⟨"", "GET", "/x", "cat"⟩)
          emptyWriter).2
        = encodeRoute (Routes.Append [] "id1" ⟨"", "GET", "/x", "cat"⟩).2) :=
  ⟨(addRoute_response_contract [] "id1" (Except.error ())).1 rfl,
   (addRoute_response_contract [] "id1"
      (Except.ok ⟨"", "", "/x", "cat"⟩)).2.1 _ rfl (Or.inl rfl),
   (addRoute_response_contract [] "id1"
      (Except.ok ⟨"", "GET", "/x", "cat"⟩)).2.2 _ rfl (by decide) (by decide)⟩

/-- C10: on the successful 201 path `addRoute` calls `WriteHeader`
before `Header().Set("Content-Type", ...)`; headers set after the
status line is committed are not sent, so the 201 response carries no
application/json Content-Type header even though its body is the
JSON-encoded created route. (Go's own Content-Type sniffing at first
write is outside the recorder semantics embedded here; in any case no
application/json header is sent.) -/
theorem addRoute_contentType_after_commit (reg : List Route)
    (fresh : String) (r : Route) (hm : r.Method ≠ "") (hp : r.Pattern ≠ "") :
    statusOf (addRoute reg fresh (Except.ok r) emptyWriter).2 = 201 ∧
    sentContentType (addRoute reg fresh (Except.ok r) emptyWriter).2 = none ∧
    bodyOf (addRoute reg fresh (Except.ok r) emptyWriter).2
      = encodeRoute (Routes.Append reg fresh r).2 := by
  simp [addRoute, hm, hp, RespWriter.writeHeader, RespWriter.headerSet,
    RespWriter.write, emptyWriter, statusOf, bodyOf, sentContentType,
    lookupHeader]

theorem addRoute_contentType_after_commit_witness :
    statusOf (addRoute [] "id1" (Except.ok sampleRoute) emptyWriter).2
        = 201 ∧
    sentContentType (addRoute [] "id1" (Except.ok sampleRoute)
        emptyWriter).2 = none ∧
    bodyOf (addRoute [] "id1" (Except.ok sampleRoute) emptyWriter).2
        = encodeRoute (Routes.Append [] "id1" sampleRoute).2 :=
  addRoute_contentType_after_commit [] "id1" sampleRoute (by decide)
    (by decide)

/-- C2 counterexample: a successful POST /routes on an empty server
state answers 201, yet the SwappableRouter table afterwards is not the
table built from the registry snapshot — `control.go` triggers no
rebuild. -/
theorem addRoute_rebuild_counterexample :
    statusOf (addRouteCtl ⟨[], []⟩ "id1"
        (Except.ok ⟨"", "GET", "/x", "cat"⟩) emptyWriter).2 = 201 ∧
    (addRouteCtl ⟨[], []⟩ "id1" (Except.ok ⟨"", "GET", "/x", "cat"⟩)
          emptyWriter).1.routerTable
      ≠ buildTable (addRouteCtl ⟨[], []⟩ "id1"
          (Except.ok ⟨"", "GET", "/x", "cat"⟩) emptyWriter).1.registry := by
  decide

/-- C2 amended: after every POST /routes and every DELETE
/routes/\x7bid\x7d — successful or not — the ControlAPI handlers leave
the SwappableRouter table unchanged; no router rebuild is
triggered. -/
theorem control_handlers_no_rebuild (st : ControlState) (fresh : String)
    (d : Except Unit Route) (id : String) (res1 res2 : RespWriter) :
    (addRouteCtl st fresh d res1).1.routerTable = st.routerTable ∧
    (removeRouteCtl st id res2).1.routerTable = st.routerTable := by
  constructor
  · simp [addRouteCtl]
  · simp [removeRouteCtl]

/-! ## Registry delete and append -/

theorem delete_eq_error_iff (reg : List Route) (id : String) :
    Routes.Delete reg id = Except.error () ↔ ∀ r ∈ reg, r.Id ≠ id := by
  induction reg with
  | nil => simp [Routes.Delete]
  | cons r rs ih =>
      by_cases h : r.Id = id
      · simp [Routes.Delete, h]
      · cases hd : Routes.Delete rs id with
        | error u =>
            cases u
            have hall := ih.mp hd
            simpa [Routes.Delete, h, hd, Except.map] using hall
        | ok rs1 =>
            simp only [Routes.Delete, if_neg h, hd, Except.map]
            constructor
            · intro hfalse
              simp at hfalse
            · intro hforall
              have he : Routes.Delete rs id = Except.error () :=
                ih.mpr (fun x hx => hforall x (List.mem_cons_of_mem r hx))
              rw [hd] at he
              simp at he

theorem delete_ok_countP (reg : List Route) (id : String) (reg1 : List Route)
    (h : Routes.Delete reg id = Except.ok reg1) :
    reg1.countP (fun r => r.Id == id) + 1
      = reg.countP (fun r => r.Id == id) := by
  induction reg generalizing reg1 with
  | nil => simp [Routes.Delete] at h
  | cons r rs ih =>
      simp only [Routes.Delete] at h
      by_cases hr : r.Id = id
      · rw [if_pos hr] at h
        cases h
        simp [List.countP_cons, hr]
      · rw [if_neg hr] at h
        cases hd : Routes.Delete rs id with
        | error u => rw [hd] at h; simp [Except.map] at h
        | ok rs1h =>
            rw [hd] at h
            simp only [Except.map] at h
            cases h
            have := ih rs1h hd
            simp [List.countP_cons, hr]
            omega

/-- C7: `removeRoute` responds 204 when a route with the given id
exists (the registry delete succeeds) and 404 when none does; a
failed delete leaves the collection unchanged, and — the id occurring
at most once — after a successful DELETE a second DELETE of the same
id returns 404. -/
theorem removeRoute_response_contract (reg : List Route) (id : String) :
    ((∃ r ∈ reg, r.Id = id) →
      statusOf (removeRoute reg id emptyWriter).2 = 204) ∧
    ((∀ r ∈ reg, r.Id ≠ id) →
      statusOf (removeRoute reg id emptyWriter).2 = 404 ∧
      (removeRoute reg id emptyWriter).1 = reg) ∧
    (reg.countP (fun r => r.Id == id) ≤ 1 →
      statusOf (removeRoute reg id emptyWriter).2 = 204 →
      statusOf
        (removeRoute (removeRoute reg id emptyWriter).1 id emptyWriter).2
          = 404) := by
  refine ⟨fun hex => ?_, fun hall => ?_, fun hcount h204 => ?_⟩
  · cases hd : Routes.Delete reg id with
    | error u =>
        cases u
        rcases hex with ⟨r, hr, hid⟩
        exact absurd hid ((delete_eq_error_iff reg id).mp hd r hr)
    | ok reg1 =>
        simp [removeRoute, hd, statusOf, RespWriter.writeHeader, emptyWriter]
  · have hd := (delete_eq_error_iff reg id).mpr hall
    simp [removeRoute, hd, statusOf, RespWriter.writeHeader, emptyWriter]
  · cases hd : Routes.Delete reg id with
    | error u =>
        cases u
        simp [removeRoute, hd, statusOf, RespWriter.writeHeader,
          emptyWriter] at h204
    | ok reg1 =>
        have hc1 := delete_ok_countP reg id reg1 hd
        have hzero : reg1.countP (fun r => r.Id == id) = 0 := by omega
        have hall : ∀ r ∈ reg1, r.Id ≠ id := by
          intro r hr
          have := (List.countP_eq_zero.mp hzero) r hr
          simpa using this
        have hd2 := (delete_eq_error_iff reg1 id).mpr hall
        simp [removeRoute, hd, hd2, statusOf, RespWriter.writeHeader,
          emptyWriter]

theorem removeRoute_response_contract_witness :
    statusOf (removeRoute [sampleRoute] "A" emptyWriter).2 = 204 ∧
    (statusOf (removeRoute [sampleRoute] "B" emptyWriter).2 = 404 ∧
      (removeRoute [sampleRoute] "B" emptyWriter).1 = [sampleRoute]) ∧
    statusOf
      (removeRoute (removeRoute [sampleRoute] "A" emptyWriter).1 "A"
        emptyWriter).2 = 404 :=
  ⟨(removeRoute_response_contract [sampleRoute] "A").1
      ⟨sampleRoute, by simp, rfl⟩,
   (removeRoute_response_contract [sampleRoute] "B").2.1 (by decide),
   (removeRoute_response_contract [sampleRoute] "A").2.2 (by decide)
      (by decide)⟩

/-- C8: `Append` assigns an id when the input route has none (the id
generator yielding a non-empty identifier), appends the stored route
to the ordered collection — the length grows by exactly one — and
returns the stored route with a non-empty id (the caller's id kept
when one was supplied). -/
theorem append_assigns_id_and_grows (reg : List Route) (fresh : String)
    (r : Route) (hfresh : fresh ≠ "") :
    (Routes.Append reg fresh r).1.length = reg.length + 1 ∧
    (Routes.Append reg fresh r).1 = reg ++ [(Routes.Append reg fresh r).2] ∧
    (Routes.Append reg fresh r).2.Id ≠ "" ∧
    (r.Id ≠ "" → (Routes.Append reg fresh r).2 = r) := by
  by_cases h : r.Id = "" <;>
    simp [Routes.Append, h, hfresh]

theorem append_assigns_id_and_grows_witness :
    (Routes.Append [] "id1" ⟨"", "GET", "/x", "cat"⟩).1.length = 0 + 1 ∧
    (Routes.Append [] "id1" ⟨"", "GET", "/x", "cat"⟩).1
      = [] ++ [(Routes.Append [] "id1" ⟨"", "GET", "/x", "cat"⟩).2] ∧
    (Routes.Append [] "id1" ⟨"", "GET", "/x", "cat"⟩).2.Id ≠ "" ∧
    ((⟨"", "GET", "/x", "cat"⟩ : Route).Id ≠ "" →
      (Routes.Append [] "id1" ⟨"", "GET", "/x", "cat"⟩).2
        = ⟨"", "GET", "/x", "cat"⟩) :=
  append_assigns_id_and_grows [] "id1" ⟨"", "GET", "/x", "cat"⟩ (by decide)

/-! ## Snapshot deep-copy -/

theorem copyCells_addr_ge (next : Nat) (cs : List RouteCell) :
    ∀ c ∈ copyCells next cs, next ≤ c.addr := by
  induction cs generalizing next with
  | nil => simp [copyCells]
  | cons c cs ih =>
      intro x hx
      simp only [copyCells, List.mem_cons] at hx
      rcases hx with rfl | hx
      · exact Nat.le_refl next
      · exact Nat.le_of_succ_le (ih (next + 1) x hx)

theorem copyCells_val (next : Nat) (cs : List RouteCell) :
    (copyCells next cs).map RouteCell.val = cs.map RouteCell.val := by
  induction cs generalizing next with
  | nil => rfl
  | cons c cs ih => simp [copyCells, ih]

/-- C4: for every registry state satisfying the allocation invariant
(every live cell's address is below the allocation bound), `Snapshot`
returns a fully independent deep copy of the ordered collection — no
returned cell shares an address with a live cell, the sequence of
route values is the same — and returns the empty sequence when the
collection is empty. -/
theorem snapshot_deep_copy (srl : SafeRouteList)
    (hinv : ∀ c ∈ srl.rs, c.addr < srl.next) :
    (∀ c ∈ (Routes.Snapshot srl).2, ∀ c2 ∈ srl.rs, c.addr ≠ c2.addr) ∧
    (Routes.Snapshot srl).2.map RouteCell.val = srl.rs.map RouteCell.val ∧
    (srl.rs = [] → (Routes.Snapshot srl).2 = []) := by
  refine ⟨fun c hc c2 hc2 => ?_, ?_, fun h => ?_⟩
  · have h1 := copyCells_addr_ge srl.next srl.rs c hc
    have h2 := hinv c2 hc2
    omega
  · exact copyCells_val srl.next srl.rs
  · simp [Routes.Snapshot, h, copyCells]

theorem snapshot_deep_copy_witness :
    (∀ c ∈ (Routes.Snapshot ⟨1, [⟨0, sampleRoute⟩]⟩).2,
        ∀ c2 ∈ [(⟨0, sampleRoute⟩ : RouteCell)], c.addr ≠ c2.addr) ∧
    (Routes.Snapshot ⟨1, [⟨0, sampleRoute⟩]⟩).2.map RouteCell.val
        = [(⟨0, sampleRoute⟩ : RouteCell)].map RouteCell.val ∧
    ([(⟨0, sampleRoute⟩ : RouteCell)] = ([] : List RouteCell) →
        (Routes.Snapshot ⟨1, [⟨0, sampleRoute⟩]⟩).2 = []) :=
  snapshot_deep_copy ⟨1, [⟨0, sampleRoute⟩]⟩ (by decide)

/-! ## Query parameters -/

theorem find?_first_match (pre post : List (String × String))
    (name v : String) (hpre : ∀ p ∈ pre, p.1 ≠ name) :
    (pre ++ (name, v) :: post).find? (fun p => p.1 = name)
      = some (name, v) := by
  induction pre with
  | nil => simp [List.find?]
  | cons q pre ih =>
      have hq : q.1 ≠ name := hpre q (List.mem_cons_self q pre)
      rw [List.cons_append, List.find?_cons_of_neg]
      · exact ih (fun p hp => hpre p (List.mem_cons_of_mem q hp))
      · simp [hq]

/-- C5: `getRequestParams` answers 200 with the first value of the
query-string parameter with the given name (when the parameter
repeats, the first occurrence wins), and 404 when no parameter of
that name is present. -/
theorem getRequestParams_first_value (query : List (String × String))
    (name : String) :
    (∀ pre v post, query = pre ++ (name, v) :: post →
      (∀ p ∈ pre, p.1 ≠ name) →
      statusOf (getRequestParams query name emptyWriter) = 200 ∧
      bodyOf (getRequestParams query name emptyWriter) = v) ∧
    ((∀ p ∈ query, p.1 ≠ name) →
      statusOf (getRequestParams query name emptyWriter) = 404) := by
  constructor
  · rintro pre v post rfl hpre
    simp [getRequestParams, find?_first_match pre post name v hpre,
      RespWriter.headerSet, RespWriter.write, RespWriter.writeHeader,
      emptyWriter, statusOf, bodyOf, setHeader]
  · intro h
    have hnone : query.find? (fun p => p.1 = name) = none := by
      rw [List.find?_eq_none]
      intro p hp
      simpa using h p hp
    simp [getRequestParams, hnone, statusOf, RespWriter.writeHeader,
      emptyWriter]

theorem getRequestParams_first_value_witness :
    (statusOf (getRequestParams [("bar", "BAZ"), ("bar", "QUX")] "bar"
        emptyWriter) = 200 ∧
      bodyOf (getRequestParams [("bar", "BAZ"), ("bar", "QUX")] "bar"
        emptyWriter) = "BAZ") ∧
    statusOf (getRequestParams [("bar", "BAZ")] "nope" emptyWriter) = 404 :=
  ⟨(getRequestParams_first_value [("bar", "BAZ"), ("bar", "QUX")] "bar").1
      [] "BAZ" [("bar", "QUX")] rfl (by simp),
   (getRequestParams_first_value [("bar", "BAZ")] "nope").2 (by decide)⟩

/-! ## SwappableRouter lock discipline -/

theorem writer_preserved (ops : List LockOp) (s s2 : RWState)
    (h : lockSteps s ops = some s2) (hops : LockOp.relW ∉ ops)
    (hw : s.writer = true) : s2.writer = true := by
  induction ops generalizing s with
  | nil =>
      simp only [lockSteps, Option.some_inj] at h
      exact h ▸ hw
  | cons op ops ih =>
      simp only [lockSteps] at h
      cases hstep : lockStep s op with
      | none => rw [hstep] at h; simp at h
      | some s1 =>
          rw [hstep] at h
          simp only [Option.some_bind] at h
          have hop : op ≠ LockOp.relW := by
            intro he
            exact hops (he ▸ List.mem_cons_self op ops)
          have hw1 : s1.writer = true := by
            cases op with
            | acqR => simp [lockStep, hw] at hstep
            | relR =>
                by_cases hr : s.readers = 0
                · simp [lockStep, hr] at hstep
                · simp only [lockStep, if_neg hr, Option.some_inj] at hstep
                  rw [← hstep]
                  exact hw
            | acqW => simp [lockStep, hw] at hstep
            | relW => exact absurd rfl hop
          exact ih s1 h (fun hm => hops (List.mem_cons_of_mem op hm)) hw1

/-- C9: the swappableMux's get/set obey the multi-reader/single-writer
discipline — an RLock (hence a get) cannot fire in any state reachable
from a write-held state without the writer releasing, a get proceeds
while only readers hold the lock, a set blocks exactly while a writer
or a reader still holds the lock — and ServeHTTP dispatches through
the captured table, so it can serve while the lock is read-held. -/
theorem swappableMux_lock_discipline (sm : SwappableMux) (t : List Route)
    (method path : String) :
    (sm.m.writer = true → ∀ ops : List LockOp, LockOp.relW ∉ ops →
      ∀ s2 : RWState, lockSteps sm.m ops = some s2 →
        lockStep s2 LockOp.acqR = none) ∧
    (sm.m.writer = false → sm.get = some sm.root) ∧
    (sm.set t = none ↔ (sm.m.writer = true ∨ 0 < sm.m.readers)) ∧
    (sm.m.writer = false →
      sm.serveHTTP method path = some (dispatch sm.root method path)) := by
  refine ⟨fun hw ops hops s2 h => ?_, fun hw => ?_, ?_, fun hw => ?_⟩
  · have h2 := writer_preserved ops sm.m s2 h hops hw
    simp [lockStep, h2]
  · simp [SwappableMux.get, lockStep, hw]
  · by_cases hw : sm.m.writer = true
    · simp [SwappableMux.set, lockStep, hw]
    · by_cases hr : 0 < sm.m.readers
      · simp [SwappableMux.set, lockStep, hw, hr]
      · simp [SwappableMux.set, lockStep, hw, hr]
  · simp [SwappableMux.serveHTTP, SwappableMux.get, lockStep, hw]

theorem swappableMux_lock_discipline_witness :
    lockStep (⟨0, true⟩ : RWState) LockOp.acqR = none ∧
    SwappableMux.get ⟨⟨2, false⟩, [sampleRoute]⟩ = some [sampleRoute] ∧
    (SwappableMux.set ⟨⟨1, false⟩, []⟩ [sampleRoute] = none ↔
      ((⟨⟨1, false⟩, []⟩ : SwappableMux).m.writer = true ∨
        0 < (⟨⟨1, false⟩, []⟩ : SwappableMux).m.readers)) ∧
    SwappableMux.serveHTTP ⟨⟨2, false⟩, [sampleRoute]⟩ "GET" "/x"
      = some (dispatch [sampleRoute] "GET" "/x") :=
  ⟨(swappableMux_lock_discipline ⟨⟨0, true⟩, []⟩ [] "GET" "/x").1 rfl []
      (by simp) ⟨0, true⟩ rfl,
   (swappableMux_lock_discipline ⟨⟨2, false⟩, [sampleRoute]⟩ []
      "GET" "/x").2.1 rfl,
   (swappableMux_lock_discipline ⟨⟨1, false⟩, []⟩ [sampleRoute]
      "GET" "/x").2.2.1,
   (swappableMux_lock_discipline ⟨⟨2, false⟩, [sampleRoute]⟩ []
      "GET" "/x").2.2.2 rfl⟩
